import Mathlib

/-!
Verification of the stochastic maximum-flow model builder
(`maxflow.ipynb`): network data, scenario generation, the base flow
model, the three risk-constraint modules, the two-phase solve
protocol, and the (absence of) configuration validation.

Machine-level conventions of the embedding:
* Python `int` values become `ℤ` (or `ℕ` for indices); model/decision
  values become `ℚ`.
* `random.randint(lo, hi)` is modelled by `randint d lo hi`: the draw
  stream supplies an arbitrary natural `d`, and the result is
  `lo + d % (hi - lo + 1)`, so every value of `[lo, hi]` is reachable
  and no value outside it is; `hi < lo` raises `ValueError` as in
  Python.
* Fallible Python operations (dict lookup, list indexing, division by
  an integer zero) return `Except PyErr`.
-/

namespace MaxFlow

/-- A directed edge is an ordered pair of node identifiers. -/
abbrev Edge := ℕ × ℕ

/-- The node list of the example network (cell 2 of the notebook). -/
def nodes : List ℕ := [0, 1, 2, 3, 4, 5]

/-- The edge → capacity mapping of the example network, as the ordered
association list of cell 2 (Python dicts preserve insertion order). -/
def edges : List (Edge × ℤ) :=
  [((0, 1), 16), ((0, 2), 13), ((1, 3), 12), ((1, 2), 10), ((2, 1), 4),
   ((2, 4), 14), ((3, 2), 9), ((4, 3), 7), ((4, 5), 4), ((3, 5), 20),
   ((5, 0), 99)]

/-- `source = 0` (cell 2). -/
def source : ℕ := 0

/-- `sink = 5` (cell 2). -/
def sink : ℕ := 5

/-- `num_scenarios = 100` (cell 3). -/
def num_scenarios : ℕ := 100

/-- The key list of the edge dictionary, i.e. `list(edges)`. -/
def edgeList : List Edge := edges.map Prod.fst

/-- `model.flow_capacity`: the Pyomo `Param` holding the deterministic
capacity; it is only ever read at declared edges, where the lookup
succeeds. -/
def flow_capacity (e : Edge) : ℤ := (edges.lookup e).getD 0

/-- Exceptions the notebook's assembly code can raise. -/
inductive PyErr where
  | keyError
  | valueError
  | zeroDivisionError
  | indexError
  deriving DecidableEq, Repr

/-- Model of `random.randint(lo, hi)`.  The draw stream supplies an
arbitrary natural `d`; the value is `lo + d % (hi - lo + 1)`, an
arbitrary element of `[lo, hi]` determined by the seed stream.  As in
Python, an empty range (`hi < lo`) raises `ValueError`. -/
def randint (d : ℕ) (lo hi : ℤ) : Except PyErr ℤ :=
  if hi < lo then .error .valueError else .ok (lo + (d : ℤ) % (hi - lo + 1))

/-- One value of the `xi` dict comprehension (cell 3), for an iterated
key `e` whose capacity (looked up at the iterated key, hence always
present) is `cap`:

    edges[source, sink] if (n, m) == (source, sink) else
    random.randint(0, edges[n, m])

The `edges[source, sink]` lookup is fallible: `(source, sink)` need not
be a key of the dictionary. -/
def xiCell (draw : Edge → ℕ → ℕ) (e : Edge) (cap : ℤ) (ω : ℕ) :
    Except PyErr ℤ :=
  if e = (source, sink) then
    match edges.lookup (source, sink) with
    | some c => .ok c
    | none => .error .keyError
  else
    randint (draw e ω) 0 cap

/-- The key set of the `xi` dict: every `(edge, scenario)` pair, in
comprehension order (edge-major). -/
def xiKeys : List (Edge × ℕ) :=
  edges.flatMap fun ec => (List.range num_scenarios).map fun ω => (ec.1, ω)

/-- The full `xi` table of cell 3: evaluate every cell in comprehension
order, propagating the first exception. -/
def xiTable (draw : Edge → ℕ → ℕ) :
    Except PyErr (List ((Edge × ℕ) × ℤ)) :=
  (edges.flatMap fun ec => (List.range num_scenarios).map fun ω => (ec, ω)).mapM
    fun p => (xiCell draw p.1.1 p.1.2 p.2).map fun v => ((p.1.1, p.2), v)

/-- The value `xi` actually assigns to a declared edge: since no edge
of the example network equals `(source, sink)`, every cell takes the
`randint` branch and yields `draw e ω % (capacity e + 1)`. -/
def xi_val (draw : Edge → ℕ → ℕ) (e : Edge) (ω : ℕ) : ℤ :=
  ((xiCell draw e (flow_capacity e) ω).toOption).getD 0

/-- The table `xiTable` evaluates to, made explicit. -/
def xiTableValue (draw : Edge → ℕ → ℕ) : List ((Edge × ℕ) × ℤ) :=
  (edges.flatMap fun ec => (List.range num_scenarios).map fun ω => (ec, ω)).map
    fun p => ((p.1.1, p.2), 0 + (draw p.1.1 p.2 : ℤ) % (p.1.2 - 0 + 1))

/-- A draw stream that always returns 0 — an admissible realization of
the random integer stream. -/
def zeroDraw : Edge → ℕ → ℕ := fun _ _ => 0

/-- The draw stream that realizes every `randint(0, cap)` at its upper
bound `cap`, so that `xi` equals the full deterministic capacity. -/
def fullDraw : Edge → ℕ → ℕ := fun e _ => (flow_capacity e).toNat

/-! ## Decision variables

One record holds a value for every variable the notebook declares:
`x` (cell 6), `y` (cell 6), `indicator` (cell 8), `cvar_beta` and
`cvar_nu` (cell 12).  Domain restrictions (`NonNegativeReals`,
`Binary`) are stated as explicit constraints below. -/

structure Asg where
  x : Edge → ℚ
  y : Edge → ℕ → ℚ
  indicator : ℕ → ℕ → ℚ
  cvar_beta : ℕ → ℚ
  cvar_nu : ℕ → ℕ → ℚ

/-! ## Base model (cell 6) -/

/-- `in_edges` of `con_flow_balance`: the declared edges whose head is
`node`. -/
def in_edges (node : ℕ) : List Edge :=
  edgeList.filter fun nm => nm.2 = node

/-- `out_edges` of `con_flow_balance`: the declared edges whose tail is
`node`. -/
def out_edges (node : ℕ) : List Edge :=
  edgeList.filter fun nm => nm.1 = node

/-- `con_flow_balance(model, node, scenario)`: total flow into `node`
equals total flow out of `node`, in scenario `ω`. -/
def con_flow_balance (σ : Asg) (node ω : ℕ) : Prop :=
  ((in_edges node).map fun e => σ.y e ω).sum
    = ((out_edges node).map fun e => σ.y e ω).sum

/-- `con_max_flow_capacity(model, n, m, scenario)`:
`y[n,m,ω] ≤ flow_capacity[n,m]`. -/
def con_max_flow_capacity (σ : Asg) (e : Edge) (ω : ℕ) : Prop :=
  σ.y e ω ≤ (flow_capacity e : ℚ)

/-- `con_eff_flow_capacity(model, n, m, scenario)`:
`y[n,m,ω] ≤ xi[n,m,ω] + x[n,m]`, for a given ξ table. -/
def con_eff_flow_capacity (ξ : Edge → ℕ → ℤ) (σ : Asg) (e : Edge) (ω : ℕ) :
    Prop :=
  σ.y e ω ≤ (ξ e ω : ℚ) + σ.x e

/-- Domains of cell 6: `x` and `y` are `NonNegativeReals`. -/
def base_domains (S : ℕ) (σ : Asg) : Prop :=
  (∀ e ∈ edgeList, 0 ≤ σ.x e) ∧
  (∀ e ∈ edgeList, ∀ ω < S, 0 ≤ σ.y e ω)

/-- `obj_min_budget(model)`: the phase-1 objective `Σ_e x[e]`. -/
def obj_min_budget (σ : Asg) : ℚ :=
  (edgeList.map σ.x).sum

/-- The base model of cell 6: flow balance for every node and scenario,
the deterministic capacity ceiling and the effective (ξ-dependent)
ceiling for every edge and scenario, with the variable domains. -/
def baseModel (ξ : Edge → ℕ → ℤ) (S : ℕ) (σ : Asg) : Prop :=
  base_domains S σ ∧
  (∀ n ∈ nodes, ∀ ω < S, con_flow_balance σ n ω) ∧
  (∀ e ∈ edgeList, ∀ ω < S, con_max_flow_capacity σ e ω) ∧
  (∀ e ∈ edgeList, ∀ ω < S, con_eff_flow_capacity ξ σ e ω)

/-! ## Type-I service-level constraints (cell 8) -/

/-- `perf_thresholds = [20, 18, 15]`. -/
def perf_thresholds : List ℚ := [20, 18, 15]

/-- `alpha_thresholds = [0.50, 0.75, 1.00]`. -/
def alpha_thresholds : List ℚ := [1/2, 3/4, 1]

/-- `num_type1_constraints = len(perf_thresholds)`. -/
def num_type1_constraints : ℕ := perf_thresholds.length

/-- `con_indicator(model, scenario, type1_con)`:
`indicator[ω,i] ≤ y[t,s,ω] / perf_thresholds[i]`.  Note the flow
variable indexed is `y[model.t, model.s, ω] = y[(sink, source), ω]`,
the return edge `(5, 0)`. -/
def con_indicator (σ : Asg) (ω i : ℕ) : Prop :=
  σ.indicator ω i ≤ σ.y (sink, source) ω / perf_thresholds.getD i 0

/-- `con_type1_service_level(model, type1_con)`:
`(Σ_ω indicator[ω,i]) / num_scenarios ≥ alpha_thresholds[i]`. -/
def con_type1_service_level (S : ℕ) (σ : Asg) (i : ℕ) : Prop :=
  ((List.range S).map fun ω => σ.indicator ω i).sum / (S : ℚ)
    ≥ alpha_thresholds.getD i 0

/-- Domain of cell 8: `indicator` is `Binary`. -/
def type1_domains (S : ℕ) (σ : Asg) : Prop :=
  ∀ ω < S, ∀ i < num_type1_constraints,
    σ.indicator ω i = 0 ∨ σ.indicator ω i = 1

/-- Everything the Type-I cell attaches to the model. -/
def type1Module (S : ℕ) (σ : Asg) : Prop :=
  type1_domains S σ ∧
  (∀ ω < S, ∀ i < num_type1_constraints, con_indicator σ ω i) ∧
  (∀ i < num_type1_constraints, con_type1_service_level S σ i)

/-! ## Type-II service-level constraint (cell 10) -/

/-- `perf_target = 23`. -/
def perf_target : ℚ := 23

/-- `beta_threshold = 0.75`. -/
def beta_threshold : ℚ := 3/4

/-- `con_type2_service_level(model)`:
`(Σ_ω y[t,s,ω]) / num_scenarios ≥ perf_target * beta_threshold` —
the single constraint the Type-II cell adds. -/
def con_type2_service_level (S : ℕ) (σ : Asg) : Prop :=
  ((List.range S).map fun ω => σ.y (sink, source) ω).sum / (S : ℚ)
    ≥ perf_target * beta_threshold

/-! ## CVaR constraints (cell 12) -/

/-- `cvar_thresholds = [4, 7.5]`. -/
def cvar_thresholds : List ℚ := [4, 15/2]

/-- `cvar_epsilons = [0.50, 0.10]`. -/
def cvar_epsilons : List ℚ := [1/2, 1/10]

/-- `num_cvar_constraints = len(cvar_thresholds)`. -/
def num_cvar_constraints : ℕ := cvar_thresholds.length

/-- `con_cvar_main(model, cvar_con)`:
`cvar_beta[i] + (Σ_ω cvar_nu[ω,i]) / (num_scenarios * cvar_epsilons[i])
 ≤ cvar_thresholds[i]`. -/
def con_cvar_main (S : ℕ) (σ : Asg) (i : ℕ) : Prop :=
  σ.cvar_beta i
    + ((List.range S).map fun ω => σ.cvar_nu ω i).sum
      / ((S : ℚ) * cvar_epsilons.getD i 0)
    ≤ cvar_thresholds.getD i 0

/-- `con_cvar_aux(model, scenario, cvar_con)`: with
`loss = perf_target - y[t,s,ω]`, require
`cvar_nu[ω,i] ≥ loss - cvar_beta[i]`. -/
def con_cvar_aux (σ : Asg) (ω i : ℕ) : Prop :=
  σ.cvar_nu ω i ≥ (perf_target - σ.y (sink, source) ω) - σ.cvar_beta i

/-- Domain of cell 12: `cvar_nu` is `NonNegativeReals`; `cvar_beta`
has no domain restriction (sign-unrestricted). -/
def cvar_domains (S : ℕ) (σ : Asg) : Prop :=
  ∀ ω < S, ∀ i < num_cvar_constraints, 0 ≤ σ.cvar_nu ω i

/-- Everything the CVaR cell attaches to the model. -/
def cvarModule (S : ℕ) (σ : Asg) : Prop :=
  cvar_domains S σ ∧
  (∀ i < num_cvar_constraints, con_cvar_main S σ i) ∧
  (∀ ω < S, ∀ i < num_cvar_constraints, con_cvar_aux σ ω i)

/-! ## Assembled model and the two-phase protocol (cell 13) -/

/-- Feasibility of the fully assembled model (base flow model plus all
three risk modules) at `S = num_scenarios`, for the ξ table generated
from `draw`. -/
def Feasible (draw : Edge → ℕ → ℕ) (σ : Asg) : Prop :=
  baseModel (xi_val draw) num_scenarios σ ∧
  type1Module num_scenarios σ ∧
  con_type2_service_level num_scenarios σ ∧
  cvarModule num_scenarios σ

/-- `obj_max_flow(model)`: the phase-2 objective
`(Σ_ω y[t,s,ω]) / num_scenarios`. -/
def obj_max_flow (σ : Asg) : ℚ :=
  ((List.range num_scenarios).map fun ω => σ.y (sink, source) ω).sum
    / (num_scenarios : ℚ)

/-- A phase-1 outcome: a feasible point that minimizes the budget
objective over all feasible points. -/
def phase1Optimal (draw : Edge → ℕ → ℕ) (σ : Asg) : Prop :=
  Feasible draw σ ∧ ∀ τ, Feasible draw τ → obj_min_budget σ ≤ obj_min_budget τ

/-- The phase-2 problem after cell 13 fixes each `x[e]` at the value
`x₀ e`, deactivates the budget objective and maximizes `obj_max_flow`:
its constraint set is the unchanged assembled constraint set plus the
fixing of `x`. -/
def phase2Point (draw : Edge → ℕ → ℕ) (xfix : Edge → ℚ) (τ : Asg) : Prop :=
  Feasible draw τ ∧ ∀ e ∈ edgeList, τ.x e = xfix e

/-! ## Spec-side formulations

These definitions transcribe the specification's wording (not the
code); the claim theorems below compare them with the code-side
definitions above. -/

/-- Spec-side base model: "for every scenario ω the assembled base
model contains: a flow-conservation equality at every node n (the sum
of y over edges entering n equals the sum of y over edges leaving n),
the deterministic ceiling y(e,ω) ≤ capacity(e) for every edge e, and
the effective ceiling y(e,ω) ≤ ξ(e,ω) + x(e) for every edge e, with
all x(e) and y(e,ω) non-negative reals." -/
def baseSpec (ξ : Edge → ℕ → ℤ) (S : ℕ) (σ : Asg) : Prop :=
  ∀ ω < S,
    (∀ n ∈ nodes,
      ((edges.filter fun ec => ec.1.2 = n).map fun ec => σ.y ec.1 ω).sum
        = ((edges.filter fun ec => ec.1.1 = n).map fun ec => σ.y ec.1 ω).sum) ∧
    (∀ ec ∈ edges, σ.y ec.1 ω ≤ (ec.2 : ℚ)) ∧
    (∀ ec ∈ edges, σ.y ec.1 ω ≤ (ξ ec.1 ω : ℚ) + σ.x ec.1) ∧
    (∀ ec ∈ edges, 0 ≤ σ.x ec.1 ∧ 0 ≤ σ.y ec.1 ω)

/-- Spec-side Type-I module: "per scenario ω, a binary indicator
variable I(ω,i) constrained by I(ω,i) ≤ y(sink-inflow edge, ω) / b_i,
and one aggregate constraint (1/S) · Σ_ω I(ω,i) ≥ α_i".  The
sink-inflow variable is `y[(5,0), ω]`. -/
def type1Spec (S : ℕ) (σ : Asg) : Prop :=
  (∀ ω < S, ∀ i < 3,
    (σ.indicator ω i = 0 ∨ σ.indicator ω i = 1) ∧
      σ.indicator ω i ≤ σ.y (5, 0) ω / perf_thresholds.getD i 0) ∧
  (∀ i < 3,
    (1 / (S : ℚ)) * ((List.range S).map fun ω => σ.indicator ω i).sum
      ≥ alpha_thresholds.getD i 0)

/-- Spec-side Type-II module: "the average of y at the sink-inflow
edge over all S scenarios, (1/S) · Σ_ω y(sink-inflow edge, ω), is at
least target × β (with target = 23 and β = 0.75)". -/
def type2Spec (S : ℕ) (σ : Asg) : Prop :=
  (1 / (S : ℚ)) * ((List.range S).map fun ω => σ.y (5, 0) ω).sum
    ≥ 23 * (3 / 4)

/-- Spec-side CVaR module: "a sign-unrestricted scalar β_i and, per
scenario ω, a non-negative ν(ω,i) with
ν(ω,i) ≥ (target − y(sink-inflow edge, ω)) − β_i, plus the single
constraint β_i + (1/(S·ε_i)) · Σ_ω ν(ω,i) ≤ ζ_i". -/
def cvarSpec (S : ℕ) (σ : Asg) : Prop :=
  ∀ i < 2,
    (∀ ω < S,
      0 ≤ σ.cvar_nu ω i ∧
        σ.cvar_nu ω i ≥ (23 - σ.y (5, 0) ω) - σ.cvar_beta i) ∧
    σ.cvar_beta i
        + (1 / ((S : ℚ) * cvar_epsilons.getD i 0))
          * ((List.range S).map fun ω => σ.cvar_nu ω i).sum
      ≤ cvar_thresholds.getD i 0

/-- Spec-side CVaR module instantiated at S = 1: "β_i + ν/ε_i ≤ ζ_i
with a single ν ≥ loss − β_i, ν ≥ 0". -/
def cvarSpecS1 (σ : Asg) : Prop :=
  ∀ i < 2,
    σ.cvar_beta i + σ.cvar_nu 0 i / cvar_epsilons.getD i 0
        ≤ cvar_thresholds.getD i 0 ∧
    σ.cvar_nu 0 i ≥ (23 - σ.y (5, 0) 0) - σ.cvar_beta i ∧
    0 ≤ σ.cvar_nu 0 i

/-! ## A concrete feasible point

A scenario-independent circulation sending the (deterministic) maximum
flow of 23 from source to sink, no reinforcement, all indicators 1,
all CVaR variables 0.  It is feasible when the draw stream realizes
every ξ at full capacity (`fullDraw`). -/

/-- The flow values of the witness circulation (max flow 23). -/
def wFlow : Edge → ℚ
  | (0, 1) => 12 | (0, 2) => 11 | (1, 3) => 12 | (2, 4) => 11
  | (4, 3) => 7 | (4, 5) => 4 | (3, 5) => 19 | (5, 0) => 23
  | _ => 0

/-- The witness assignment. -/
def wAsg : Asg where
  x := fun _ => 0
  y := fun e _ => wFlow e
  indicator := fun _ _ => 1
  cvar_beta := fun _ => 0
  cvar_nu := fun _ _ => 0

/-! ## Parameterized model assembly (for the error-handling claim)

`buildModel` re-runs the notebook's assembly cells on an arbitrary
configuration, tracking exactly the fallible Python operations each
cell performs (the `edges[source, sink]` lookup, `random.randint`,
threshold-list indexing, and division by the integer `num_scenarios`,
which in Python raises `ZeroDivisionError` only when the scenario set
is empty — then the generator sums are the plain integer 0). -/

structure Config where
  nodes : List ℕ
  edges : List (Edge × ℤ)
  source : ℕ
  sink : ℕ
  num_scenarios : ℕ
  perf_thresholds : List ℚ
  alpha_thresholds : List ℚ
  perf_target : ℚ
  beta_threshold : ℚ
  cvar_thresholds : List ℚ
  cvar_epsilons : List ℚ

/-- Python list indexing `l[i]`: `IndexError` when out of range. -/
def listIndex {α : Type} (l : List α) (i : ℕ) : Except PyErr α :=
  match l.get? i with
  | some a => .ok a
  | none => .error .indexError

/-- `xiCell` generalized to an arbitrary configuration (the same
conditional expression of cell 3). -/
def cfgXiCell (cfg : Config) (draw : Edge → ℕ → ℕ) (e : Edge) (cap : ℤ)
    (ω : ℕ) : Except PyErr ℤ :=
  if e = (cfg.source, cfg.sink) then
    match cfg.edges.lookup (cfg.source, cfg.sink) with
    | some c => .ok c
    | none => .error .keyError
  else
    randint (draw e ω) 0 cap

/-- Run the notebook's assembly cells (3, 6, 8, 10, 12) on `cfg`,
performing every fallible operation in program order, and return the
number of constraint rows assembled.  No configuration validation
appears anywhere because the notebook performs none. -/
def buildModel (cfg : Config) (draw : Edge → ℕ → ℕ) : Except PyErr ℕ := do
  let xiT ← (cfg.edges.flatMap fun ec =>
      (List.range cfg.num_scenarios).map fun ω => (ec, ω)).mapM
    fun p => (cfgXiCell cfg draw p.1.1 p.1.2 p.2).map fun v =>
      ((p.1.1, p.2), v)
  let nBase := cfg.nodes.length * cfg.num_scenarios
    + 2 * (cfg.edges.length * cfg.num_scenarios)
  let n1 := cfg.perf_thresholds.length
  let _ ← (List.range cfg.num_scenarios).mapM fun _ =>
    (List.range n1).mapM fun i => listIndex cfg.perf_thresholds i
  let _ ← (List.range n1).mapM fun i => do
    if cfg.num_scenarios = 0 then throw PyErr.zeroDivisionError
    let _ ← listIndex cfg.alpha_thresholds i
    pure ()
  if cfg.num_scenarios = 0 then throw PyErr.zeroDivisionError
  let n2 := cfg.cvar_thresholds.length
  let _ ← (List.range n2).mapM fun i => do
    let _ ← listIndex cfg.cvar_epsilons i
    if cfg.num_scenarios = 0 then throw PyErr.zeroDivisionError
    let _ ← listIndex cfg.cvar_thresholds i
    pure ()
  pure (xiT.length + nBase + cfg.num_scenarios * n1 + n1 + 1
    + n2 + cfg.num_scenarios * n2)

/-- The configuration of the example notebook. -/
def exampleCfg : Config where
  nodes := nodes
  edges := edges
  source := source
  sink := sink
  num_scenarios := num_scenarios
  perf_thresholds := perf_thresholds
  alpha_thresholds := alpha_thresholds
  perf_target := perf_target
  beta_threshold := beta_threshold
  cvar_thresholds := cvar_thresholds
  cvar_epsilons := cvar_epsilons

/-- Malformed: the extra edge (0, 7) references node 7, which is not
in the node set. -/
def cfgUnknownNode : Config :=
  { exampleCfg with edges := exampleCfg.edges ++ [((0, 7), 5)] }

/-- Malformed: the edge (0, 1) is given a negative capacity. -/
def cfgNegCap : Config :=
  { exampleCfg with edges := ((0, 1), -3) :: exampleCfg.edges.tail }

/-- Malformed: an empty scenario set. -/
def cfgEmptyScen : Config :=
  { exampleCfg with num_scenarios := 0 }

/-- Malformed: the Type-I threshold lists have mismatched lengths. -/
def cfgMismatch : Config :=
  { exampleCfg with alpha_thresholds := [1/2, 3/4] }

/-! ## Helper lemmas -/

lemma mapM_eq_ok {α β : Type} (f : α → Except PyErr β) (g : α → β) :
    ∀ l : List α, (∀ x ∈ l, f x = .ok (g x)) → l.mapM f = Except.ok (l.map g) := by
  intro l
  induction l with
  | nil => intro _; rfl
  | cons a t ih =>
    intro h
    rw [List.mapM_cons, h a (by simp), List.map_cons,
      ih fun x hx => h x (List.mem_cons_of_mem a hx)]
    rfl

lemma edges_entries : ∀ ec ∈ edges, ec.1 ≠ (source, sink) ∧ 0 ≤ ec.2 := by
  decide

lemma edges_fc : ∀ ec ∈ edges, flow_capacity ec.1 = ec.2 := by
  decide

lemma xiTable_eq (draw : Edge → ℕ → ℕ) :
    xiTable draw = .ok (xiTableValue draw) := by
  unfold xiTable xiTableValue
  apply mapM_eq_ok
  intro p hp
  simp only [List.mem_flatMap, List.mem_map] at hp
  obtain ⟨ec, hec, ω, hω, rfl⟩ := hp
  obtain ⟨hne, hcap⟩ := edges_entries ec hec
  simp [xiCell, hne, randint, not_lt.mpr hcap, Except.map]

lemma xiTableValue_keys (draw : Edge → ℕ → ℕ) :
    (xiTableValue draw).map Prod.fst = xiKeys := by
  simp only [xiTableValue, xiKeys, List.map_flatMap, List.map_map]
  rfl

lemma xiKeys_nodup : xiKeys.Nodup := by
  rw [xiKeys, List.nodup_flatMap]
  constructor
  · intro ec _
    exact (List.nodup_range _).map fun a b h => by
      simpa using congrArg Prod.snd h
  · have h : edges.Pairwise fun a b => a.1 ≠ b.1 := by decide
    refine h.imp ?_
    intro a b hab x hxa hxb
    simp only [Function.onFun, List.mem_map, List.mem_range] at hxa hxb
    obtain ⟨ω, _, rfl⟩ := hxa
    obtain ⟨ω', _, h2⟩ := hxb
    exact hab (congrArg Prod.fst h2).symm

lemma sum_map_range_const (n : ℕ) (c : ℚ) :
    ((List.range n).map fun _ => c).sum = n * c := by
  simp [List.map_const', List.sum_replicate, nsmul_eq_mul]

lemma xi_val_fullDraw :
    ∀ e ∈ edgeList, ∀ ω : ℕ, xi_val fullDraw e ω = flow_capacity e := by
  intro e he ω
  fin_cases he <;> rfl

lemma wAsg_feasible : Feasible fullDraw wAsg := by
  refine ⟨⟨⟨?_, ?_⟩, ?_, ?_, ?_⟩, ⟨?_, ?_, ?_⟩, ?_, ⟨?_, ?_, ?_⟩⟩
  · intro e he; norm_num [wAsg]
  · intro e he ω hω; fin_cases he <;> norm_num [wAsg, wFlow]
  · intro n hn ω hω
    fin_cases hn <;>
      norm_num [con_flow_balance, in_edges, out_edges, edgeList, edges,
        List.filter, wAsg, wFlow]
  · intro e he ω hω
    rw [con_max_flow_capacity]
    fin_cases he <;>
      norm_num [wAsg, wFlow,
        show flow_capacity (0,1) = 16 from rfl, show flow_capacity (0,2) = 13 from rfl,
        show flow_capacity (1,3) = 12 from rfl, show flow_capacity (1,2) = 10 from rfl,
        show flow_capacity (2,1) = 4 from rfl, show flow_capacity (2,4) = 14 from rfl,
        show flow_capacity (3,2) = 9 from rfl, show flow_capacity (4,3) = 7 from rfl,
        show flow_capacity (4,5) = 4 from rfl, show flow_capacity (3,5) = 20 from rfl,
        show flow_capacity (5,0) = 99 from rfl]
  · intro e he ω hω
    rw [con_eff_flow_capacity, xi_val_fullDraw e he ω]
    fin_cases he <;>
      norm_num [wAsg, wFlow,
        show flow_capacity (0,1) = 16 from rfl, show flow_capacity (0,2) = 13 from rfl,
        show flow_capacity (1,3) = 12 from rfl, show flow_capacity (1,2) = 10 from rfl,
        show flow_capacity (2,1) = 4 from rfl, show flow_capacity (2,4) = 14 from rfl,
        show flow_capacity (3,2) = 9 from rfl, show flow_capacity (4,3) = 7 from rfl,
        show flow_capacity (4,5) = 4 from rfl, show flow_capacity (3,5) = 20 from rfl,
        show flow_capacity (5,0) = 99 from rfl]
  · intro ω hω i hi; right; rfl
  · intro ω hω i hi
    have hi3 : i < 3 := hi
    rw [con_indicator]
    interval_cases i <;> norm_num [wAsg, wFlow, sink, source, perf_thresholds]
  · intro i hi
    have hi3 : i < 3 := hi
    rw [con_type1_service_level]
    simp only [wAsg]
    rw [sum_map_range_const]
    interval_cases i <;> norm_num [num_scenarios, alpha_thresholds]
  · rw [con_type2_service_level]
    simp only [wAsg]
    rw [sum_map_range_const]
    norm_num [num_scenarios, wFlow, sink, source, perf_target, beta_threshold]
  · intro ω hω i hi; norm_num [wAsg]
  · intro i hi
    have hi2 : i < 2 := hi
    rw [con_cvar_main]
    simp only [wAsg]
    rw [sum_map_range_const]
    interval_cases i <;> norm_num [num_scenarios, cvar_epsilons, cvar_thresholds]
  · intro ω hω i hi
    rw [con_cvar_aux]
    norm_num [wAsg, wFlow, sink, source, perf_target]

lemma wAsg_phase1Optimal : phase1Optimal fullDraw wAsg := by
  refine ⟨wAsg_feasible, ?_⟩
  intro τ hτ
  have h0 : obj_min_budget wAsg = 0 := by
    norm_num [obj_min_budget, wAsg, edgeList, edges]
  rw [h0, obj_min_budget]
  apply List.sum_nonneg
  intro q hq
  obtain ⟨e, he, rfl⟩ := List.mem_map.mp hq
  exact hτ.1.1.1 e he

lemma all_eq_one_of_le_sum :
    ∀ l : List ℚ, (∀ q ∈ l, q ≤ 1) → ((l.length : ℚ) ≤ l.sum) →
      ∀ q ∈ l, q = 1 := by
  intro l
  induction l with
  | nil => intro _ _ q hq; simp at hq
  | cons a t ih =>
    intro h1 h2
    have hts : t.sum ≤ (t.length : ℚ) := by
      have := List.sum_le_card_nsmul t 1
        fun x hx => h1 x (List.mem_cons_of_mem a hx)
      simpa [nsmul_eq_mul] using this
    have ha : a ≤ 1 := h1 a (List.mem_cons_self a t)
    rw [List.sum_cons, List.length_cons] at h2
    push_cast at h2
    intro q hq
    rcases List.mem_cons.mp hq with rfl | hq
    · linarith
    · refine ih (fun x hx => h1 x (List.mem_cons_of_mem a hx)) ?_ q hq
      linarith

/-! ## Claim theorems -/

/-- Claim C1 (code bug): the spec requires ξ(return edge, ω) to equal
the edge's full capacity with no random reduction, but the generator's
exemption tests `(n, m) == (source, sink) = (0, 5)`, which is not an
edge of the network, so the return edge (5, 0) (capacity 99) takes the
`randint` branch in every scenario; the admissible zero draw yields
ξ((5,0), 0) = 0 ≠ 99. -/
theorem return_edge_not_exempt :
    ((5, 0), (99 : ℤ)) ∈ edges ∧
    (source, sink) ∉ edgeList ∧
    (∀ draw : Edge → ℕ → ℕ, ∀ ω : ℕ,
      xiCell draw (5, 0) 99 ω = randint (draw (5, 0) ω) 0 99) ∧
    xiCell zeroDraw (5, 0) 99 0 = .ok 0 ∧ (0 : ℤ) ≠ 99 :=
  ⟨by decide, by decide, fun _ _ => rfl, rfl, by decide⟩

/-- Claim C8: for every edge and scenario, the generated coefficient
is an integer within [0, capacity(e)] inclusive (the draw stream is
the uniform-random source; boundedness holds for every realization). -/
theorem xi_within_bounds (draw : Edge → ℕ → ℕ) :
    ∀ ec ∈ edges, ∀ ω : ℕ, ∀ v : ℤ,
      xiCell draw ec.1 ec.2 ω = .ok v → 0 ≤ v ∧ v ≤ ec.2 := by
  intro ec hec ω v hv
  obtain ⟨hne, hcap⟩ := edges_entries ec hec
  simp only [xiCell, hne, if_false, randint,
    if_neg (not_lt.mpr hcap), Except.ok.injEq] at hv
  have h1 : 0 ≤ (draw ec.1 ω : ℤ) % (ec.2 - 0 + 1) :=
    Int.emod_nonneg _ (by omega)
  have h2 : (draw ec.1 ω : ℤ) % (ec.2 - 0 + 1) < ec.2 - 0 + 1 :=
    Int.emod_lt_of_pos _ (by omega)
  constructor <;> linarith [hv.symm.le, hv.le]

/-- Claim C8 witness: the draw value 5 at edge (0, 1) of capacity 16
lands at ξ = 5 ∈ [0, 16]. -/
theorem xi_within_bounds_witness : (0 : ℤ) ≤ 5 ∧ (5 : ℤ) ≤ 16 :=
  xi_within_bounds (fun _ _ => 5) ((0, 1), 16) (by decide) 0 5 rfl

/-- Claim C10: building the ξ table is total — the `(source, sink)`
capacity lookup would fail (the pair is not a key) but is never
reached, the construction succeeds for every draw stream, and its keys
are exactly the (edge, scenario) pairs, each occurring once. -/
theorem xi_table_total (draw : Edge → ℕ → ℕ) :
    edges.lookup (source, sink) = none ∧
    xiTable draw = .ok (xiTableValue draw) ∧
    (xiTableValue draw).map Prod.fst = xiKeys ∧
    xiKeys.Nodup :=
  ⟨by decide, xiTable_eq draw, xiTableValue_keys draw, xiKeys_nodup⟩

set_option maxRecDepth 100000 in
/-- Claim C7 counterexample: a malformed configuration — its extra
edge (0, 7) references node 7, which is not in the node set — is
assembled without any error: no fail-fast configuration check exists. -/
theorem no_validation_cex :
    (∃ ec ∈ cfgUnknownNode.edges, ec.1.2 ∉ cfgUnknownNode.nodes) ∧
    (buildModel cfgUnknownNode zeroDraw).isOk = true :=
  ⟨⟨((0, 7), 5), by decide, by decide⟩, rfl⟩

set_option maxRecDepth 100000 in
/-- Claim C7 amended: assembly performs no validation.  An edge
referencing an undeclared node is not detected at all (assembly
completes), while a negative capacity, an empty scenario set, and
mismatched threshold lists abort assembly only through incidental
exceptions (`ValueError` from `randint`, `ZeroDivisionError` from the
integer division by `num_scenarios`, `IndexError` from threshold-list
indexing), not a dedicated configuration error. -/
theorem no_validation_amended :
    (buildModel cfgUnknownNode zeroDraw).isOk = true ∧
    buildModel cfgNegCap zeroDraw = .error .valueError ∧
    buildModel cfgEmptyScen zeroDraw = .error .zeroDivisionError ∧
    buildModel cfgMismatch zeroDraw = .error .indexError :=
  ⟨rfl, rfl, rfl, rfl⟩

/-- Claim C2: if phase 1 returns a feasible budget-optimal point, then
after fixing every x(e) at its phase-1 value (the budget objective
deactivated, the objective switched to the scenario-average flow), the
phase-2 problem is feasible: the phase-1 point itself satisfies the
unchanged constraint set with x fixed. -/
theorem phase2_feasible (draw : Edge → ℕ → ℕ) (σ : Asg)
    (h : phase1Optimal draw σ) : phase2Point draw σ.x σ :=
  ⟨h.1, fun _ _ => rfl⟩

/-- Claim C2 witness: the concrete phase-1 optimal point `wAsg` (zero
budget) solves its own phase-2 problem. -/
theorem phase2_feasible_witness : phase2Point fullDraw wAsg.x wAsg :=
  phase2_feasible fullDraw wAsg wAsg_phase1Optimal

/-- Claim C4: the third Type-I threshold has α = 1, so in every
feasible solution of the assembled model all 100 binary indicators of
that threshold equal 1 and the sink inflow is at least b = 15 in every
scenario — the chance constraint degenerates to a worst-case bound. -/
theorem alpha_one_forces_robust (draw : Edge → ℕ → ℕ) (σ : Asg)
    (h : Feasible draw σ) :
    alpha_thresholds.getD 2 0 = 1 ∧
    (∀ ω < num_scenarios, σ.indicator ω 2 = 1) ∧
    (∀ ω < num_scenarios, σ.y (sink, source) ω ≥ perf_thresholds.getD 2 0) := by
  obtain ⟨-, ⟨hdom, hind, hagg⟩, -, -⟩ := h
  have h2 : 2 < num_type1_constraints := by
    norm_num [num_type1_constraints, perf_thresholds]
  have hsum := hagg 2 h2
  rw [con_type1_service_level] at hsum
  have hle : ∀ q ∈ (List.range num_scenarios).map fun ω => σ.indicator ω 2,
      q ≤ 1 := by
    intro q hq
    obtain ⟨ω, hω, rfl⟩ := List.mem_map.mp hq
    rcases hdom ω (List.mem_range.mp hω) 2 h2 with h0 | h1
    · rw [h0]; norm_num
    · rw [h1]
  have hS : (0 : ℚ) < (num_scenarios : ℚ) := by norm_num [num_scenarios]
  have hsum' :
      ((((List.range num_scenarios).map fun ω => σ.indicator ω 2).length : ℚ))
        ≤ ((List.range num_scenarios).map fun ω => σ.indicator ω 2).sum := by
    have hα : alpha_thresholds.getD 2 0 = 1 := rfl
    rw [hα] at hsum
    have := (le_div_iff₀ hS).mp hsum
    simp only [List.length_map, List.length_range]
    linarith
  have hall := all_eq_one_of_le_sum _ hle hsum'
  have hone : ∀ ω < num_scenarios, σ.indicator ω 2 = 1 := by
    intro ω hω
    exact hall _ (List.mem_map_of_mem _ (List.mem_range.mpr hω))
  refine ⟨rfl, hone, ?_⟩
  intro ω hω
  have hc := hind ω hω 2 h2
  rw [con_indicator, hone ω hω] at hc
  have h15 : perf_thresholds.getD 2 0 = 15 := rfl
  rw [h15] at hc ⊢
  have h0 : (0 : ℚ) < 15 := by norm_num
  have := (le_div_iff₀ h0).mp hc
  linarith

/-- Claim C4 witness: the concrete feasible point `wAsg` has all
third-threshold indicators 1 and sink inflow 23 ≥ 15 everywhere. -/
theorem alpha_one_forces_robust_witness :
    alpha_thresholds.getD 2 0 = 1 ∧
    (∀ ω < num_scenarios, wAsg.indicator ω 2 = 1) ∧
    (∀ ω < num_scenarios, wAsg.y (sink, source) ω ≥ perf_thresholds.getD 2 0) :=
  alpha_one_forces_robust fullDraw wAsg wAsg_feasible

/-- Claim C3: each Type-I threshold has a positive performance bound,
and the Type-I cell attaches exactly the per-scenario binary
indicators with `I ≤ y/b_i` and the per-threshold aggregate
`(1/S)·Σ I ≥ α_i` — nothing else. -/
theorem type1_module_exact :
    (∀ i < 3, 0 < perf_thresholds.getD i 0) ∧
    (∀ σ : Asg, type1Module num_scenarios σ ↔ type1Spec num_scenarios σ) := by
  constructor
  · intro i hi
    interval_cases i <;> norm_num [perf_thresholds]
  · intro σ
    constructor
    · rintro ⟨hdom, hind, hagg⟩
      refine ⟨fun ω hω i hi => ⟨hdom ω hω i hi, hind ω hω i hi⟩,
        fun i hi => ?_⟩
      have h := hagg i hi
      rw [con_type1_service_level] at h
      rw [one_div_mul_eq_div]
      exact h
    · rintro ⟨hper, hagg⟩
      refine ⟨fun ω hω i hi => (hper ω hω i hi).1,
        fun ω hω i hi => (hper ω hω i hi).2, fun i hi => ?_⟩
      rw [con_type1_service_level]
      have h := hagg i hi
      rw [one_div_mul_eq_div] at h
      exact h

/-- Claim C9: the Type-II cell adds exactly one constraint and no
auxiliary variables: the scenario-average of the sink inflow is at
least target × β, with target = 23 and β = 0.75. -/
theorem type2_module_exact :
    perf_target = 23 ∧ beta_threshold = 3 / 4 ∧
    (∀ σ : Asg, con_type2_service_level num_scenarios σ ↔ type2Spec num_scenarios σ) := by
  refine ⟨rfl, rfl, fun σ => ?_⟩
  rw [con_type2_service_level, type2Spec, one_div_mul_eq_div]
  exact Iff.rfl

/-- Claim C5: the CVaR cell attaches exactly, per constraint i, the
free scalar β_i, the non-negative ν(ω,i) with
ν ≥ (target − y) − β_i, and the single constraint
β_i + (1/(S·ε_i))·Σ ν ≤ ζ_i; and at S = 1 this collapses to
β_i + ν/ε_i ≤ ζ_i with a single ν ≥ loss − β_i, ν ≥ 0. -/
theorem cvar_module_exact :
    (∀ S : ℕ, ∀ σ : Asg, cvarModule S σ ↔ cvarSpec S σ) ∧
    (∀ σ : Asg, cvarModule 1 σ ↔ cvarSpecS1 σ) := by
  have hgen : ∀ S : ℕ, ∀ σ : Asg, cvarModule S σ ↔ cvarSpec S σ := by
    intro S σ
    constructor
    · rintro ⟨hdom, hmain, haux⟩
      intro i hi
      refine ⟨fun ω hω => ⟨hdom ω hω i hi, haux ω hω i hi⟩, ?_⟩
      have h := hmain i hi
      rw [con_cvar_main] at h
      rw [one_div_mul_eq_div]
      exact h
    · intro h
      refine ⟨fun ω hω i hi => ((h i hi).1 ω hω).1,
        fun i hi => ?_, fun ω hω i hi => ((h i hi).1 ω hω).2⟩
      rw [con_cvar_main]
      have h2 := (h i hi).2
      rw [one_div_mul_eq_div] at h2
      exact h2
  refine ⟨hgen, fun σ => ?_⟩
  rw [hgen 1 σ]
  have hmainS1 : ∀ i : ℕ,
      (σ.cvar_beta i
          + (1 / (((1 : ℕ) : ℚ) * cvar_epsilons.getD i 0))
            * ((List.range 1).map fun ω => σ.cvar_nu ω i).sum
        ≤ cvar_thresholds.getD i 0)
      ↔ σ.cvar_beta i + σ.cvar_nu 0 i / cvar_epsilons.getD i 0
        ≤ cvar_thresholds.getD i 0 := by
    intro i
    simp only [show List.range 1 = [0] from rfl, List.map_cons, List.map_nil,
      List.sum_cons, List.sum_nil, add_zero, Nat.cast_one, one_mul,
      one_div_mul_eq_div]
  constructor
  · intro h i hi
    obtain ⟨hω, hmain⟩ := h i hi
    have h0 := hω 0 (by norm_num)
    exact ⟨(hmainS1 i).mp hmain, h0.2, h0.1⟩
  · intro h i hi
    obtain ⟨hmain, haux, hpos⟩ := h i hi
    refine ⟨fun ω hω => ?_, (hmainS1 i).mpr hmain⟩
    have hω0 : ω = 0 := by omega
    subst hω0
    exact ⟨hpos, haux⟩

/-- Claim C6: the assembled base model contains, for every scenario,
flow conservation at every node, the deterministic capacity ceiling
and the effective ceiling ξ + x for every edge, with non-negative x
and y — and nothing beyond the spec-side formulation. -/
theorem base_model_spec (draw : Edge → ℕ → ℕ) (σ : Asg) :
    baseModel (xi_val draw) num_scenarios σ
      ↔ baseSpec (xi_val draw) num_scenarios σ := by
  constructor
  · rintro ⟨⟨hx, hy⟩, hbal, hcap, heff⟩
    intro ω hω
    refine ⟨?_, ?_, ?_, ?_⟩
    · intro n hn
      have h := hbal n hn ω hω
      revert h
      fin_cases hn <;> exact id
    · intro ec hec
      have h := hcap ec.1 (List.mem_map_of_mem Prod.fst hec) ω hω
      rw [con_max_flow_capacity, edges_fc ec hec] at h
      exact h
    · intro ec hec
      exact heff ec.1 (List.mem_map_of_mem Prod.fst hec) ω hω
    · intro ec hec
      exact ⟨hx ec.1 (List.mem_map_of_mem Prod.fst hec),
        hy ec.1 (List.mem_map_of_mem Prod.fst hec) ω hω⟩
  · intro h
    have h100 : 0 < num_scenarios := by norm_num [num_scenarios]
    refine ⟨⟨?_, ?_⟩, ?_, ?_, ?_⟩
    · intro e he
      obtain ⟨ec, hec, rfl⟩ := List.mem_map.mp he
      exact ((h 0 h100).2.2.2 ec hec).1
    · intro e he ω hω
      obtain ⟨ec, hec, rfl⟩ := List.mem_map.mp he
      exact ((h ω hω).2.2.2 ec hec).2
    · intro n hn ω hω
      have hb := (h ω hω).1 n hn
      revert hb
      fin_cases hn <;> exact id
    · intro e he ω hω
      obtain ⟨ec, hec, rfl⟩ := List.mem_map.mp he
      rw [con_max_flow_capacity, edges_fc ec hec]
      exact (h ω hω).2.1 ec hec
    · intro e he ω hω
      obtain ⟨ec, hec, rfl⟩ := List.mem_map.mp he
      exact (h ω hω).2.2.1 ec hec

/-- Claim C3 witness: the equivalence and the positive-bound fact
instantiated at the concrete threshold 0 and the concrete point. -/
theorem type1_module_exact_witness :
    0 < perf_thresholds.getD 0 0 ∧
    (type1Module num_scenarios wAsg ↔ type1Spec num_scenarios wAsg) :=
  ⟨type1_module_exact.1 0 (by norm_num), type1_module_exact.2 wAsg⟩

/-- Claim C5 witness: the S = 1 collapse instantiated at the concrete
point. -/
theorem cvar_module_exact_witness :
    (cvarModule 1 wAsg ↔ cvarSpecS1 wAsg) ∧
    (cvarModule num_scenarios wAsg ↔ cvarSpec num_scenarios wAsg) :=
  ⟨cvar_module_exact.2 wAsg, cvar_module_exact.1 num_scenarios wAsg⟩

/-- Claim C6 witness: the base-model equivalence instantiated at the
concrete draw stream and point. -/
theorem base_model_spec_witness :
    baseModel (xi_val fullDraw) num_scenarios wAsg
      ↔ baseSpec (xi_val fullDraw) num_scenarios wAsg :=
  base_model_spec fullDraw wAsg

/-- Claim C9 witness: the Type-II equivalence instantiated at the
concrete point. -/
theorem type2_module_exact_witness :
    con_type2_service_level num_scenarios wAsg ↔ type2Spec num_scenarios wAsg :=
  type2_module_exact.2.2 wAsg

/-- Claim C10 witness: the table of the zero draw stream evaluates as
stated. -/
theorem xi_table_total_witness :
    xiTable zeroDraw = .ok (xiTableValue zeroDraw) :=
  (xi_table_total zeroDraw).2.1

end MaxFlow
